import Mathlib

/-!
Shallow embedding of the variant-tracker data pipeline (src/app.py).

The program is a Dash app over a pandas DataFrame `df` with columns
`variant` (string), `week_ending` (datetime, day granularity),
`creation_date` (datetime) and `share` (float).  We model:

* a row as a `Record` structure; `week_ending` as an `Int` day number
  (pandas datetimes at day granularity are totally ordered and support
  "one day after" as `+ 1`), `creation_date` as a calendar-date triple
  (its month/day/year rendering matters for the latest-update label),
  and `share` as a rational number (the exact arithmetic of the
  rescaling and of the group means);
* the `filter_data` callback (app.py lines 148-165) as a function on a
  list of records.  The callback's category condition is
  `'ALL' not in selected_variants and selected_variants is not None
   and len(selected_variants) > 0`; Python evaluates the conjuncts left
  to right, so when `selected_variants` is `None` the first membership
  test raises `TypeError` before the `is not None` guard runs.  We model
  the selection argument as `Option (List String)` and the raised
  exception as `Except.error`;
* the `update_graph` callback (app.py lines 171-194) as a function from
  the filtered rows and the graph type to a `Figure` value: the empty
  check returns the "no data" scatter, the `box` branch passes the rows
  through unchanged, the `bar` branch is the pandas
  `groupby('variant').agg({share: mean})`.  pandas sorts the group keys
  of a groupby; no claim here depends on row order of the grouped
  output, so we keep the keys in first-seen order;
* the module-level line 59
  `latest_published_date = df['creation_date'].max().strftime('%B %d, 2023')`
  with its format string reproduced literally: `%B` is the full month
  name, `%d` the zero-padded day, and the year is the literal text
  `2023`, not a format directive.
-/

/-- Calendar date of the `creation_date` column, compared lexicographically
(year, month, day), which agrees with the pandas datetime order. -/
structure CDate where
  year : Nat
  month : Nat
  day : Nat
deriving DecidableEq

/-- Lexicographic order on calendar dates, as a Bool (pandas `max` uses it). -/
def CDate.leb (a b : CDate) : Bool :=
  decide (a.year < b.year) ||
    (decide (a.year = b.year) &&
      (decide (a.month < b.month) ||
        (decide (a.month = b.month) && decide (a.day ≤ b.day))))

/-- One row of the DataFrame after `preprocess_data`:
`variant`, `week_ending` (day number), `creation_date`, `share` (float,
modelled exactly as a rational). -/
structure Record where
  variant : String
  week_ending : Int
  creation_date : CDate
  share : ℚ
deriving DecidableEq

/-- The category branch of `filter_data` (app.py lines 155-156): when the
condition `'ALL' not in sel and ... and len(sel) > 0` holds, keep the rows
whose `variant` is in the selection, else leave the frame unchanged. -/
def applyCategoryFilter (sel : List String) (df : List Record) : List Record :=
  if !(sel.contains "ALL") && decide (0 < sel.length) then
    df.filter (fun r => sel.contains r.variant)
  else df

/-- The date-range predicate of `filter_data` (app.py lines 158-161):
`week_ending.dt.date >= start_date` and `<= end_date`. -/
def inRange (start_date end_date : Int) (r : Record) : Bool :=
  decide (start_date ≤ r.week_ending) && decide (r.week_ending ≤ end_date)

/-- The share rescaling of `filter_data` (app.py line 163):
`filtered_df['share'] = filtered_df['share'] * 100`. -/
def rescale (r : Record) : Record :=
  { r with share := r.share * 100 }

/-- The `filter_data` callback body (app.py lines 148-165).  The
`selected_variants` argument is `Option (List String)`: the dropdown can
hand the callback `None`, and in that case Python raises `TypeError` while
evaluating `'ALL' not in selected_variants` (the `is not None` conjunct
comes after the membership test and never fires), which we model as
`Except.error`.  Otherwise: category filter, then inclusive date filter on
the copy of `df`, then the share rescaling, returned in original order. -/
def filter_data (start_date end_date : Int) (selected_variants : Option (List String))
    (df : List Record) : Except String (List Record) :=
  match selected_variants with
  | none => Except.error "TypeError: argument of type NoneType is not iterable"
  | some sel =>
      Except.ok (((applyCategoryFilter sel df).filter (inRange start_date end_date)).map rescale)

/-- The two values of the graph-type dropdown (`'box'` and `'bar'`). -/
inductive GraphType where
  | box
  | bar
deriving DecidableEq

/-- The figure produced by `update_graph`, reduced to its data content:
the "no data" scatter, the box plot over the unmodified filtered rows, or
the bar plot over the per-variant mean of `share`. -/
inductive Figure where
  | noData
  | boxFig (rows : List Record)
  | barFig (rows : List (String × ℚ))
deriving DecidableEq

/-- The record rows a figure displays (the bar figure displays aggregated
pairs, not record rows). -/
def Figure.points : Figure → List Record
  | Figure.noData => []
  | Figure.boxFig rows => rows
  | Figure.barFig _ => []

/-- Distinct variant names in first-seen order (the group keys of the
pandas groupby; pandas sorts them, but no claim depends on key order). -/
def distinctVariants : List String → List String
  | [] => []
  | x :: xs => x :: (distinctVariants xs).filter (fun y => decide (y ≠ x))

/-- The `share` values of the rows of one variant group. -/
def groupShares (c : String) (l : List Record) : List ℚ :=
  (l.filter (fun r => decide (r.variant = c))).map Record.share

/-- Arithmetic mean of a list of rationals (pandas `agg mean`). -/
def listMean (xs : List ℚ) : ℚ :=
  xs.sum / (xs.length : ℚ)

/-- The `bar` branch of `update_graph` (app.py line 186):
`filtered_df.groupby('variant', as_index=False).agg({'share': 'mean'})` —
one row per distinct variant, carrying the mean of `share` in its group. -/
def groupMeanShare (l : List Record) : List (String × ℚ) :=
  (distinctVariants (l.map Record.variant)).map (fun c => (c, listMean (groupShares c l)))

/-- The `update_graph` callback body (app.py lines 171-194): empty input
(or a frame with no `variant` column, which for a nonempty record list
cannot happen) yields the "no data" scatter; `box` passes the rows through
unchanged; `bar` aggregates to the per-variant mean. -/
def update_graph (filtered : List Record) (graph_type : GraphType) : Figure :=
  if filtered.isEmpty then Figure.noData
  else
    match graph_type with
    | GraphType.box => Figure.boxFig filtered
    | GraphType.bar => Figure.barFig (groupMeanShare filtered)

/-- Maximum of the `creation_date` column (`df['creation_date'].max()`),
folded with the lexicographic order; the zero date stands for the `NaT`
of an empty column (the app never builds an empty dataset: the page would
already have failed at line 59). -/
def maxCreationDate (df : List Record) : CDate :=
  df.foldl (fun acc r => if acc.leb r.creation_date then r.creation_date else acc) ⟨0, 0, 0⟩

/-- `%B`: full English month name. -/
def monthName : Nat → String
  | 1 => "January"
  | 2 => "February"
  | 3 => "March"
  | 4 => "April"
  | 5 => "May"
  | 6 => "June"
  | 7 => "July"
  | 8 => "August"
  | 9 => "September"
  | 10 => "October"
  | 11 => "November"
  | 12 => "December"
  | _ => ""

/-- `%d`: zero-padded two-digit day. -/
def pad2 (n : Nat) : String :=
  if n < 10 then "0" ++ toString n else toString n

/-- App.py line 59: `df['creation_date'].max().strftime('%B %d, 2023')`.
The format string ends in the literal text `2023`: the year of the maximum
record is not rendered, every label ends in ", 2023". -/
def latest_published_date (df : List Record) : String :=
  let m := maxCreationDate df
  monthName m.month ++ " " ++ pad2 m.day ++ ", 2023"

/-- The mutable pieces the two callbacks can see: the module-level
DataFrame `df` (read-only in practice: `filter_data` works on
`df.copy()` and never assigns the module variable) and the
`dcc.Store('filtered-data')` holding the latest filter output. -/
structure AppState where
  df : List Record
  filteredStore : List Record
deriving DecidableEq

/-- Running the `filter_data` callback against the app state: its only
output is the `filtered-data` store; the body reads `df` through
`df.copy()` (line 153) and every later assignment targets the copy, so
the `df` field is left as it was. -/
def run_filter_callback (start_date end_date : Int) (selected_variants : Option (List String))
    (st : AppState) : Except String AppState :=
  match filter_data start_date end_date selected_variants st.df with
  | Except.error m => Except.error m
  | Except.ok out => Except.ok { st with filteredStore := out }

-- Basic facts used by several claim proofs.

theorem rescale_week_ending (r : Record) : (rescale r).week_ending = r.week_ending := rfl

theorem rescale_variant (r : Record) : (rescale r).variant = r.variant := rfl

theorem mem_distinctVariants {c : String} {L : List String} :
    c ∈ distinctVariants L ↔ c ∈ L := by
  induction L with
  | nil => simp [distinctVariants]
  | cons x xs ih =>
      by_cases hcx : c = x
      · subst hcx
        simp [distinctVariants]
      · simp [distinctVariants, hcx, List.mem_filter, ih]

theorem nodup_distinctVariants (L : List String) : (distinctVariants L).Nodup := by
  induction L with
  | nil => simp [distinctVariants]
  | cons x xs ih =>
      refine List.Nodup.cons ?_ (List.Nodup.filter _ ih)
      intro hx
      rcases List.mem_filter.mp hx with ⟨_, hne⟩
      simp at hne

theorem groupMeanShare_map_fst (l : List Record) :
    (groupMeanShare l).map Prod.fst = distinctVariants (l.map Record.variant) := by
  unfold groupMeanShare
  generalize distinctVariants (l.map Record.variant) = L
  induction L with
  | nil => rfl
  | cons x xs ih => simp [ih]

theorem filter_data_some_eq (s e : Int) (sel : List String) (D : List Record) :
    filter_data s e (some sel) D =
      Except.ok (((applyCategoryFilter sel D).filter (inRange s e)).map rescale) := rfl

theorem inRange_iff (s e : Int) (r : Record) :
    inRange s e r = true ↔ (s ≤ r.week_ending ∧ r.week_ending ≤ e) := by
  simp [inRange]

-- Concrete sample rows used by the witnesses.

def recA : Record :=
  { variant := "Alpha", week_ending := 5, creation_date := ⟨2024, 3, 15⟩, share := 523 / 10000 }

def recB : Record :=
  { variant := "Beta", week_ending := 7, creation_date := ⟨2023, 6, 1⟩, share := 1 / 5 }

/-- C1: for every dataset, date range and category selection, `filter_data`
keeps exactly the records whose `week_ending` (the record's period end)
satisfies `start <= period_end <= end`, both bounds inclusive: among the
records passing the category selection, one is kept exactly when its
period end lies in the closed range, every kept record lies in the range,
and a record whose period end is one day after the end bound is never
kept. -/
theorem filter_keeps_exactly_inclusive_range (D : List Record) (s e : Int)
    (sel : List String) (l : List Record)
    (h : filter_data s e (some sel) D = Except.ok l) :
    (∀ r ∈ l, s ≤ r.week_ending ∧ r.week_ending ≤ e) ∧
    (∀ r ∈ l, r.week_ending ≠ e + 1) ∧
    (∀ r0 ∈ applyCategoryFilter sel D,
      (rescale r0 ∈ l ↔ (s ≤ r0.week_ending ∧ r0.week_ending ≤ e))) := by
  rw [filter_data_some_eq] at h
  have hl : l = ((applyCategoryFilter sel D).filter (inRange s e)).map rescale :=
    (Except.ok.inj h).symm
  subst hl
  refine ⟨?_, ?_, ?_⟩
  · intro r hr
    rcases List.mem_map.mp hr with ⟨r1, hr1, rfl⟩
    rcases List.mem_filter.mp hr1 with ⟨_, hir⟩
    simpa [rescale_week_ending] using (inRange_iff s e r1).mp hir
  · intro r hr
    rcases List.mem_map.mp hr with ⟨r1, hr1, rfl⟩
    rcases List.mem_filter.mp hr1 with ⟨_, hir⟩
    have hb := (inRange_iff s e r1).mp hir
    simp only [rescale_week_ending]
    omega
  · intro r0 hr0
    constructor
    · intro hmem
      rcases List.mem_map.mp hmem with ⟨r1, hr1, heq⟩
      rcases List.mem_filter.mp hr1 with ⟨_, hir⟩
      have hb := (inRange_iff s e r1).mp hir
      have hw := congrArg Record.week_ending heq
      simp only [rescale_week_ending] at hw
      omega
    · intro hb
      exact List.mem_map_of_mem rescale
        (List.mem_filter.mpr ⟨hr0, (inRange_iff s e r0).mpr hb⟩)

theorem filter_keeps_exactly_inclusive_range_witness :
    (∀ r ∈ [rescale recA], (5 : Int) ≤ r.week_ending ∧ r.week_ending ≤ 6) ∧
    (∀ r ∈ [rescale recA], r.week_ending ≠ 6 + 1) ∧
    (∀ r0 ∈ applyCategoryFilter ["ALL"] [recA, recB],
      (rescale r0 ∈ [rescale recA] ↔ ((5 : Int) ≤ r0.week_ending ∧ r0.week_ending ≤ 6))) :=
  filter_keeps_exactly_inclusive_range [recA, recB] 5 6 ["ALL"] [rescale recA] rfl

/-- C2: every record in the output of `filter_data` comes from a record of
the dataset that survives the category selection and the inclusive date
range, and its output share value is exactly the stored fractional share
multiplied by 100; records that do not survive contribute no output
value (every output value arises from a surviving record). -/
theorem share_pct_is_share_times_100 (D : List Record) (s e : Int)
    (sel : List String) (l : List Record)
    (h : filter_data s e (some sel) D = Except.ok l) :
    ∀ r ∈ l, ∃ r0, r0 ∈ applyCategoryFilter sel D ∧
      (s ≤ r0.week_ending ∧ r0.week_ending ≤ e) ∧
      r = rescale r0 ∧ r.share = r0.share * 100 := by
  rw [filter_data_some_eq] at h
  have hl : l = ((applyCategoryFilter sel D).filter (inRange s e)).map rescale :=
    (Except.ok.inj h).symm
  subst hl
  intro r hr
  rcases List.mem_map.mp hr with ⟨r1, hr1, rfl⟩
  rcases List.mem_filter.mp hr1 with ⟨hmem, hir⟩
  exact ⟨r1, hmem, (inRange_iff s e r1).mp hir, rfl, rfl⟩

theorem share_pct_is_share_times_100_witness :
    (∀ r ∈ [rescale recA], ∃ r0, r0 ∈ applyCategoryFilter ["ALL"] [recA] ∧
      ((0 : Int) ≤ r0.week_ending ∧ r0.week_ending ≤ 10) ∧
      r = rescale r0 ∧ r.share = r0.share * 100) ∧
    (rescale recA).share = 523 / 100 :=
  ⟨share_pct_is_share_times_100 [recA] 0 10 ["ALL"] [rescale recA] rfl, by norm_num [rescale, recA]⟩

/-- C7: whenever the start of the range is after its end, `filter_data`
returns the empty sequence wrapped in a normal (`Except.ok`) result, for
every dataset and every (present) category selection: a defined outcome,
not a raised error. -/
theorem empty_when_start_after_end (D : List Record) (s e : Int) (sel : List String)
    (h : e < s) : filter_data s e (some sel) D = Except.ok [] := by
  rw [filter_data_some_eq]
  have hnil : (applyCategoryFilter sel D).filter (inRange s e) = [] := by
    apply List.filter_eq_nil_iff.mpr
    intro r _
    simp only [inRange, Bool.and_eq_true, decide_eq_true_eq, not_and]
    omega
  rw [hnil]
  rfl

theorem empty_when_start_after_end_witness :
    filter_data 9 2 (some ["Alpha"]) [recA, recB] = Except.ok [] :=
  empty_when_start_after_end [recA, recB] 9 2 ["Alpha"] (by decide)

/-- C10: when the selection contains the sentinel "ALL" — even alongside
specific variant names — `filter_data` applies no category restriction at
all: the category-filter step leaves the dataset unchanged, and the result
is exactly the date-filtered, rescaled dataset. -/
theorem all_sentinel_wins (D : List Record) (s e : Int) (sel : List String)
    (h : "ALL" ∈ sel) :
    applyCategoryFilter sel D = D ∧
    filter_data s e (some sel) D = Except.ok ((D.filter (inRange s e)).map rescale) := by
  refine ⟨?_, ?_⟩
  · simp [applyCategoryFilter, h]
  · rw [filter_data_some_eq]
    simp [applyCategoryFilter, h]

theorem all_sentinel_wins_witness :
    applyCategoryFilter ["ALL", "Beta"] [recA, recB] = [recA, recB] ∧
    filter_data 0 10 (some ["ALL", "Beta"]) [recA, recB] =
      Except.ok (([recA, recB].filter (inRange 0 10)).map rescale) :=
  all_sentinel_wins [recA, recB] 0 10 ["ALL", "Beta"] (by simp)

theorem groupShares_ne_nil_of_mem {l : List Record} {c : String}
    (h : c ∈ l.map Record.variant) : groupShares c l ≠ [] := by
  rcases List.mem_map.mp h with ⟨r, hr, rfl⟩
  have : r ∈ l.filter (fun x => decide (x.variant = r.variant)) :=
    List.mem_filter.mpr ⟨hr, by simp⟩
  simp only [groupShares, ne_eq, List.map_eq_nil_iff]
  intro hnil
  rw [hnil] at this
  exact (List.not_mem_nil r) this

/-- C3: on a non-empty filtered input, the `bar` branch of `update_graph`
produces the grouped means; that grouping has exactly one row per distinct
variant present in the input (its key list is duplicate-free and carries
exactly the variants occurring in the input), the value of each row is the
arithmetic mean of the `share` values of its group (equivalently, the
value times the group size equals the group sum), and for a variant with
exactly one input record the value is that record's `share` unchanged. -/
theorem ranked_mean_is_per_category_mean (l : List Record) (h : l ≠ []) :
    update_graph l GraphType.bar = Figure.barFig (groupMeanShare l) ∧
    ((groupMeanShare l).map Prod.fst).Nodup ∧
    (∀ c, c ∈ (groupMeanShare l).map Prod.fst ↔ c ∈ l.map Record.variant) ∧
    (∀ c v, (c, v) ∈ groupMeanShare l →
      v = listMean (groupShares c l) ∧
      v * ((groupShares c l).length : ℚ) = (groupShares c l).sum) ∧
    (∀ r ∈ l, l.filter (fun x => decide (x.variant = r.variant)) = [r] →
      (r.variant, r.share) ∈ groupMeanShare l) := by
  refine ⟨?_, ?_, ?_, ?_, ?_⟩
  · cases l with
    | nil => exact absurd rfl h
    | cons x xs => rfl
  · rw [groupMeanShare_map_fst]
    exact nodup_distinctVariants _
  · intro c
    rw [groupMeanShare_map_fst]
    exact mem_distinctVariants
  · intro c v hcv
    rcases List.mem_map.mp hcv with ⟨c1, hc1, heq⟩
    rcases Prod.mk.injEq .. ▸ heq with ⟨rfl, rfl⟩
    have hmem : c1 ∈ l.map Record.variant := mem_distinctVariants.mp hc1
    have hne : ((groupShares c1 l).length : ℚ) ≠ 0 := by
      have := groupShares_ne_nil_of_mem hmem
      simpa [List.length_eq_zero] using this
    refine ⟨rfl, ?_⟩
    rw [listMean, div_mul_cancel₀ _ hne]
  · intro r hr hsingle
    have hmem : r.variant ∈ distinctVariants (l.map Record.variant) :=
      mem_distinctVariants.mpr (List.mem_map_of_mem Record.variant hr)
    have hgroup : groupShares r.variant l = [r.share] := by
      rw [groupShares, hsingle]
      rfl
    have hmean : listMean (groupShares r.variant l) = r.share := by
      rw [hgroup]
      simp [listMean]
    have : (r.variant, listMean (groupShares r.variant l)) ∈ groupMeanShare l :=
      List.mem_map_of_mem (fun c => (c, listMean (groupShares c l))) hmem
    rwa [hmean] at this

theorem ranked_mean_is_per_category_mean_witness :
    update_graph [recA, recB] GraphType.bar = Figure.barFig (groupMeanShare [recA, recB]) ∧
    ((groupMeanShare [recA, recB]).map Prod.fst).Nodup ∧
    (∀ c, c ∈ (groupMeanShare [recA, recB]).map Prod.fst ↔
      c ∈ [recA, recB].map Record.variant) ∧
    (∀ c v, (c, v) ∈ groupMeanShare [recA, recB] →
      v = listMean (groupShares c [recA, recB]) ∧
      v * ((groupShares c [recA, recB]).length : ℚ) = (groupShares c [recA, recB]).sum) ∧
    (∀ r ∈ [recA, recB], [recA, recB].filter (fun x => decide (x.variant = r.variant)) = [r] →
      (r.variant, r.share) ∈ groupMeanShare [recA, recB]) :=
  ranked_mean_is_per_category_mean [recA, recB] (by simp)

/-- C4: the `box` (distribution) branch of `update_graph` is the identity
transform on the filtered rows: the record rows of the produced figure are
exactly the input list (same length, same field values, same order), and
on any non-empty input the figure is literally the box figure over the
unchanged input list. -/
theorem distribution_mode_is_identity (l : List Record) :
    (update_graph l GraphType.box).points = l ∧
    (l ≠ [] → update_graph l GraphType.box = Figure.boxFig l) := by
  cases l with
  | nil => exact ⟨rfl, fun hn => absurd rfl hn⟩
  | cons x xs => exact ⟨rfl, fun _ => rfl⟩

theorem distribution_mode_is_identity_witness :
    (update_graph [recA, recB] GraphType.box).points = [recA, recB] ∧
    update_graph [recA, recB] GraphType.box = Figure.boxFig [recA, recB] :=
  ⟨(distribution_mode_is_identity [recA, recB]).1,
   (distribution_mode_is_identity [recA, recB]).2 (by simp)⟩

/-- C6: on empty filtered input, `update_graph` returns the "no data
available for the selected criteria" figure for both graph types, and the
grouped-mean computation applied to the empty input yields no rows at all
(no mean over an empty group is ever formed). -/
theorem empty_input_yields_no_data (gt : GraphType) :
    update_graph [] gt = Figure.noData ∧ groupMeanShare [] = [] :=
  ⟨rfl, rfl⟩

/-- C8: the callbacks never mutate the base DataFrame: running the
`filter_data` callback leaves the `df` field of the application state
unchanged (in particular every record's fractional `share` is as before),
and running it a second time with the same date range and selection stores
the identical filter output and yields the identical figure for any graph
type. -/
theorem filter_never_mutates_dataset (s e : Int) (sv : Option (List String))
    (gt : GraphType) (st st1 st2 : AppState)
    (h1 : run_filter_callback s e sv st = Except.ok st1)
    (h2 : run_filter_callback s e sv st1 = Except.ok st2) :
    st1.df = st.df ∧ st2.df = st.df ∧
    st2.filteredStore = st1.filteredStore ∧
    update_graph st2.filteredStore gt = update_graph st1.filteredStore gt := by
  unfold run_filter_callback at h1
  cases hf : filter_data s e sv st.df with
  | error m => rw [hf] at h1; exact absurd h1 (by simp)
  | ok out =>
      rw [hf] at h1
      have hst1 : st1 = { st with filteredStore := out } := (Except.ok.inj h1).symm
      have hdf1 : st1.df = st.df := by rw [hst1]
      unfold run_filter_callback at h2
      rw [hdf1, hf] at h2
      have hst2 : st2 = { df := st.df, filteredStore := out } := (Except.ok.inj h2).symm
      have hstore1 : st1.filteredStore = out := by rw [hst1]
      have hstore2 : st2.filteredStore = out := by rw [hst2]
      refine ⟨hdf1, ?_, ?_, ?_⟩
      · rw [hst2]
      · rw [hstore2, hstore1]
      · rw [hstore2, hstore1]

theorem filter_never_mutates_dataset_witness :
    (⟨[recA], [rescale recA]⟩ : AppState).df = (⟨[recA], []⟩ : AppState).df ∧
    (⟨[recA], [rescale recA]⟩ : AppState).df = (⟨[recA], []⟩ : AppState).df ∧
    (⟨[recA], [rescale recA]⟩ : AppState).filteredStore =
      (⟨[recA], [rescale recA]⟩ : AppState).filteredStore ∧
    update_graph (⟨[recA], [rescale recA]⟩ : AppState).filteredStore GraphType.bar =
      update_graph (⟨[recA], [rescale recA]⟩ : AppState).filteredStore GraphType.bar :=
  filter_never_mutates_dataset 0 10 (some ["ALL"]) GraphType.bar
    ⟨[recA], []⟩ ⟨[recA], [rescale recA]⟩ ⟨[recA], [rescale recA]⟩ rfl rfl

/-- C5 (code behavior at the failing input): an empty selection list does
fall back to "no category restriction", agreeing with the "ALL" sentinel;
but an absent selection (the `None` the dropdown can deliver) makes
`filter_data` raise `TypeError` — Python evaluates
`'ALL' not in selected_variants` before the `is not None` guard — instead
of falling back to "all categories" as the spec states. -/
theorem none_selection_raises_type_error :
    filter_data 0 10 (some []) [recA, recB] = filter_data 0 10 (some ["ALL"]) [recA, recB] ∧
    filter_data 0 10 none [recA, recB] =
      Except.error "TypeError: argument of type NoneType is not iterable" :=
  ⟨rfl, rfl⟩

/-- C9 (code behavior at the failing input): the label on line 59 is built
with the format string `'%B %d, 2023'`, whose year part is the literal
text `2023`; for a dataset whose maximum `creation_date` is 2024-03-15 the
code renders "March 15, 2023", not the year of the maximum record. -/
theorem latest_published_year_is_hardcoded :
    maxCreationDate [recB, recA] = ⟨2024, 3, 15⟩ ∧
    latest_published_date [recB, recA] = "March 15, 2023" ∧
    latest_published_date [recB, recA] ≠ "March 15, 2024" :=
  ⟨rfl, rfl, by decide⟩
